import Mathlib

/-!
Shallow embedding of the analytics engine of the realestatedash repository.

Numbers are modeled as exact rationals.  A JavaScript value that may be
`undefined` (a missing row or a missing metric field) is modeled as
`Option ℚ` with `none` for the missing case.  A JavaScript division whose
result is not a finite number (`0/0` is `NaN`, `x/0` is infinite) is
modeled by `jsDiv`, which returns `none` for a zero divisor.  JavaScript
truthiness of a numeric value (`undefined`, `0` and `NaN` are falsy) is
modeled by testing for `none` and for the value `0`.  Strings are modeled
as `List Char`.
-/

namespace RealEstate

/-- Series of observations of one metric for one geography: pairs of a
`month_date_yyyymm` date key and the (possibly missing) metric value. -/
abbrev Series := List (Int × Option ℚ)

/-- Whitespace test used by the JavaScript string `trim` and the `\s`
character class (core ASCII whitespace characters). -/
def jsIsWhitespace (c : Char) : Bool :=
  c = ' ' || c = '\t' || c = '\n' || c = '\r' || c = '\x0b' || c = '\x0c'

/-- Model of the JavaScript `String.prototype.trim`: drop leading and
trailing whitespace. -/
def jsTrim (l : List Char) : List Char :=
  ((l.dropWhile jsIsWhitespace).reverse.dropWhile jsIsWhitespace).reverse

/-- State machine of `parseCSVLine` (src/unnamed/part_001, lines 108-128):
`values` and `current` are the accumulators, `inQuotes` the quote flag.
A quote character toggles the flag and is never appended; a comma outside
quotes pushes the trimmed current field; any other character is appended. -/
def parseCSVLineAux : List Char → List (List Char) → List Char → Bool → List (List Char)
  | [], values, current, _ => values ++ [jsTrim current]
  | c :: rest, values, current, inQuotes =>
    if c = '"' then
      parseCSVLineAux rest values current (!inQuotes)
    else if c = ',' && !inQuotes then
      parseCSVLineAux rest (values ++ [jsTrim current]) [] inQuotes
    else
      parseCSVLineAux rest values (current ++ [c]) inQuotes

/-- Model of `parseCSVLine` (src/unnamed/part_001, lines 108-128). -/
def parseCSVLine (line : List Char) : List (List Char) :=
  parseCSVLineAux line [] [] false

/-- The three cleanliness properties claimed for one parsed CSV field: no
quote character, no leading whitespace, no trailing whitespace. -/
def fieldClean (f : List Char) : Prop :=
  '"' ∉ f ∧ (∀ c, f.head? = some c → jsIsWhitespace c = false) ∧
    (∀ c, f.getLast? = some c → jsIsWhitespace c = false)

/-- Stable insertion (descending by `key`) used to model the JavaScript
`Array.prototype.sort` with comparator `(a, b) => key(b) - key(a)`. -/
def insertDescBy (key : α → Int) (a : α) : List α → List α
  | [] => [a]
  | y :: ys => if key y ≤ key a then a :: y :: ys else y :: insertDescBy key a ys

/-- Stable sort, descending by `key`: model of the JavaScript
`sort((a, b) => parseInt(b.month_date_yyyymm) - parseInt(a.month_date_yyyymm))`. -/
def sortDescBy (key : α → Int) : List α → List α
  | [] => []
  | a :: l => insertDescBy key a (sortDescBy key l)

/-- First row with the given date in a row list, otherwise `none`. -/
def firstRowAt (d : Int) : Series → Option ℚ
  | [] => none
  | r :: rest => if r.fst = d then r.snd else firstRowAt d rest

/-- Model of the `dataMap` lookup of `getReturns` (src/unnamed/part_001,
lines 277-281 and 288-289): the map is built by iterating the rows with
assignment, so the last row with a given date wins (hence the scan of the
reversed list); a missing date and a missing metric field both give
`undefined`, modeled as `none`. -/
def seriesAt (rows : Series) (d : Int) : Option ℚ :=
  firstRowAt d rows.reverse

/-- Loop of `getReturns` (src/unnamed/part_001, lines 284-295) over the
consecutive date pairs.  The JavaScript guard
`currentValue && previousValue && previousValue !== 0` requires both
values to be present and nonzero (a numeric value is truthy exactly when
it is nonzero; the final `!== 0` test is redundant). -/
def getReturnsAux (rows : Series) : List Int → List ℚ
  | currentDate :: previousDate :: rest =>
    let tail := getReturnsAux rows (previousDate :: rest)
    match seriesAt rows currentDate, seriesAt rows previousDate with
    | some currentValue, some previousValue =>
      if currentValue ≠ 0 ∧ previousValue ≠ 0 then
        ((currentValue - previousValue) / previousValue) :: tail
      else
        tail
    | _, _ => tail
  | _ => []

/-- Model of `getReturns` (src/unnamed/part_001, lines 274-298). -/
def getReturns (rows : Series) (dates : List Int) : List ℚ :=
  getReturnsAux rows dates

/-- Model of `getCommonDates` (src/unnamed/part_001, lines 208-215):
the dates of the state series (first-occurrence deduplicated, as by a
JavaScript `Set`) that also occur in the national series, sorted
descending. -/
def getCommonDates (stateRows nationalRows : Series) : List Int :=
  let stateDates := (stateRows.map Prod.fst).eraseDups
  let nationalDates := nationalRows.map Prod.fst
  sortDescBy id (stateDates.filter (fun d => nationalDates.contains d))

/-- Division as JavaScript performs it on finite operands: a zero divisor
yields a non-finite result (`NaN` or an infinity), modeled as `none`. -/
def jsDiv (a b : ℚ) : Option ℚ :=
  if b = 0 then none else some (a / b)

/-- Model of `calculateCovariance` (src/unnamed/part_001, lines 326-339). -/
def calculateCovariance (x y : List ℚ) : Option ℚ :=
  let n := x.length
  if n ≠ y.length ∨ n = 0 then some 0
  else
    let meanX := x.sum / (n : ℚ)
    let meanY := y.sum / (n : ℚ)
    jsDiv (List.zipWith (fun a b => (a - meanX) * (b - meanY)) x y).sum ((n : ℚ) - 1)

/-- Model of `calculateVariance` (src/unnamed/part_001, lines 341-353). -/
def calculateVariance (x : List ℚ) : Option ℚ :=
  let n := x.length
  if n = 0 then some 0
  else
    let mean := x.sum / (n : ℚ)
    jsDiv (x.map (fun v => (v - mean) ^ 2)).sum ((n : ℚ) - 1)

/-- Final stage of `calculateBeta` (src/unnamed/part_001, lines 237-247):
length guard, covariance over variance, `null` on zero national variance.
The wildcard branch is unreachable: the length guard forces at least two
returns, so both `jsDiv` divisors are nonzero. -/
def betaFromReturns (stateReturns nationalReturns : List ℚ) : Option ℚ :=
  if stateReturns.length ≠ nationalReturns.length ∨ stateReturns.length < 2 then none
  else
    match calculateCovariance stateReturns nationalReturns,
          calculateVariance nationalReturns with
    | some covariance, some nationalVariance =>
      if nationalVariance = 0 then none else some (covariance / nationalVariance)
    | _, _ => none

/-- Model of `calculateBeta` (src/unnamed/part_001, lines 226-248). -/
def calculateBeta (stateRows nationalRows : Series) (months : ℕ)
    (commonDates : List Int) : Option ℚ :=
  if commonDates.length < months then none
  else
    let relevantDates := commonDates.take months
    betaFromReturns (getReturns stateRows relevantDates)
      (getReturns nationalRows relevantDates)

/-- Beta field of the formatted record built by `getFormattedStateData`
(src/unnamed/part_001, lines 411-425): each beta is exposed as
`stateInfo.betas?.metric?.beta || 0`, so a `null` beta is replaced by `0`. -/
def formatBetaField (beta : Option ℚ) : ℚ :=
  match beta with
  | none => 0
  | some v => v

/-- Model of `calculateChanges` (src/unnamed/part_001, lines 499-541):
month-over-month and year-over-year change of a metric series.  The
JavaScript guards `currentValue && previousMonthValue && previousMonthValue !== 0`
and `currentValue && yearAgoValue && yearAgoValue !== 0` require both
values present and nonzero. -/
def calculateChanges (ts : Series) : ℚ × ℚ :=
  if ts.length < 2 then (0, 0)
  else
    let sorted := sortDescBy Prod.fst ts
    let currentValue := sorted.head?.bind Prod.snd
    let mom :=
      if 2 ≤ sorted.length then
        match currentValue, (sorted.get? 1).bind Prod.snd with
        | some c, some p => if c ≠ 0 ∧ p ≠ 0 then c / p - 1 else 0
        | _, _ => 0
      else 0
    let yoy :=
      if 13 ≤ sorted.length then
        match currentValue, (sorted.get? 12).bind Prod.snd with
        | some c, some p => if c ≠ 0 ∧ p ≠ 0 then c / p - 1 else 0
        | _, _ => 0
      else 0
    (mom, yoy)

/-- Scaling of a metric series by a constant: every present value is
multiplied by `k`, missing values stay missing.  Used to state the
scaling claim about beta. -/
def scaleSeries (k : ℚ) (rows : Series) : Series :=
  rows.map (fun r => (r.fst, r.snd.map (fun v => k * v)))

/-- Mean of a list of rationals, as written in the specification. -/
def listMean (l : List ℚ) : ℚ := l.sum / (l.length : ℚ)

/-- Sample covariance exactly as the specification words it:
`Σ((x_i − mean_x)(y_i − mean_y)) / (n − 1)` (Bessel-corrected). -/
def specSampleCovariance (x y : List ℚ) : ℚ :=
  (List.zipWith (fun a b => (a - listMean x) * (b - listMean y)) x y).sum
    / ((x.length : ℚ) - 1)

/-- Sample variance exactly as the specification words it: same form as
the covariance, single series. -/
def specSampleVariance (y : List ℚ) : ℚ :=
  (y.map (fun v => (v - listMean y) ^ 2)).sum / ((y.length : ℚ) - 1)

/-- Change formula exactly as the claim words it: the result is `0` when
the denominator is missing or zero or the numerator is missing, and
otherwise the quotient formula `current / previous - 1` applies. -/
def claimChange (cur prev : Option ℚ) : ℚ :=
  match cur, prev with
  | some c, some p => if p = 0 then 0 else c / p - 1
  | _, _ => 0

/-- The mom and yoy changes exactly as the claim words them: quotient
formulas over the first, second and thirteenth most recent observations,
with yoy computed only for at least 13 observations. -/
def claimChanges (ts : Series) : ℚ × ℚ :=
  let sorted := sortDescBy Prod.fst ts
  let currentValue := sorted.head?.bind Prod.snd
  (claimChange currentValue ((sorted.get? 1).bind Prod.snd),
   if 13 ≤ sorted.length then
     claimChange currentValue ((sorted.get? 12).bind Prod.snd)
   else 0)

/-- Change formula amended to match the code: the division is also
skipped when the numerator is zero. -/
def amendedChange (cur prev : Option ℚ) : ℚ :=
  match cur, prev with
  | some c, some p => if c ≠ 0 ∧ p ≠ 0 then c / p - 1 else 0
  | _, _ => 0

/-- The mom and yoy changes amended to match the code: as `claimChanges`
but with the zero-numerator skip. -/
def amendedChanges (ts : Series) : ℚ × ℚ :=
  let sorted := sortDescBy Prod.fst ts
  let currentValue := sorted.head?.bind Prod.snd
  (amendedChange currentValue ((sorted.get? 1).bind Prod.snd),
   if 13 ≤ sorted.length then
     amendedChange currentValue ((sorted.get? 12).bind Prod.snd)
   else 0)

/-- Test whether the first list is an initial segment of the second. -/
def listStartsWith : List Char → List Char → Bool
  | [], _ => true
  | _ :: _, [] => false
  | p :: ps, c :: cs => p = c && listStartsWith ps cs

/-- Model of the JavaScript `a.includes(b)` on strings: `sub` occurs as a
contiguous substring of `s`. -/
def isSubstringOf (sub s : List Char) : Bool :=
  listStartsWith sub s ||
    match s with
    | [] => false
    | _ :: rest => isSubstringOf sub rest

/-- Token matcher of the token-overlap stage of `createMetroNameMapping`
(src/app.js, lines 1319-1333).  Tokens shorter than 4 characters never
match; equal tokens match; a contained token matches when its length is
at least 80 percent of `minLength`, the length of the shorter token
(`8 * minLength ≤ 10 * length` encodes the factor `0.8` exactly; the
source also computes `maxLength` but never uses it). -/
def tokenMatch (city cbsaCity : List Char) : Bool :=
  if city.length < 4 || cbsaCity.length < 4 then false
  else
    let minLength := min city.length cbsaCity.length
    if city == cbsaCity then true
    else if isSubstringOf cbsaCity city && decide (8 * minLength ≤ 10 * cbsaCity.length) then true
    else if isSubstringOf city cbsaCity && decide (8 * minLength ≤ 10 * city.length) then true
    else false

/-- Collapse every run of whitespace into a single space: model of the
JavaScript `replace` of the pattern of one or more whitespace characters
by one space. -/
def collapseWs : List Char → List Char
  | [] => []
  | c :: rest =>
    if jsIsWhitespace c then ' ' :: collapseWs (rest.dropWhile jsIsWhitespace)
    else c :: collapseWs rest
termination_by l => l.length
decreasing_by
  all_goals simp_wf
  all_goals have h := (List.dropWhile_sublist (l := rest) jsIsWhitespace).length_le
  all_goals omega

/-- Keep lowercase letters, digits and whitespace: the character class
kept by the normalization in `createMetroNameMapping`. -/
def keepAlnumWs (c : Char) : Bool :=
  (('a' ≤ c && c ≤ 'z') || ('0' ≤ c && c ≤ '9')) || jsIsWhitespace c

/-- Model of the `normalize` helper of `createMetroNameMapping`
(src/app.js, lines 1271-1276): lowercase, remove every character other
than lowercase letters, digits and whitespace, collapse whitespace runs,
trim. -/
def normalizeName (name : List Char) : List Char :=
  jsTrim (collapseWs ((name.map Char.toLower).filter keepAlnumWs))

/-- Split a string on hyphen and comma separators: model of the
JavaScript `split` on the character class of hyphen and comma inside
`extractCityNames`. -/
def splitDashComma : List Char → List (List Char) → List Char → List (List Char)
  | [], parts, current => parts ++ [current]
  | c :: rest, parts, current =>
    if c = '-' || c = ',' then splitDashComma rest (parts ++ [current]) []
    else splitDashComma rest parts (current ++ [c])

/-- True when one of the keywords metro, micro, area, msa starts here
(tested on lowercased characters). -/
def metroKeywordAt (s : List Char) : Bool :=
  listStartsWith ("metro".toList) s || listStartsWith ("micro".toList) s ||
    listStartsWith ("area".toList) s || listStartsWith ("msa".toList) s

/-- Model of the case-insensitive JavaScript `replace` of the pattern of
whitespace followed by one of the keywords metro, micro, area, msa up to
the end of the string by the empty string: everything from the leftmost
whitespace run that is followed by a keyword is removed. -/
def stripMetroSuffix : List Char → List Char
  | [] => []
  | c :: rest =>
    if jsIsWhitespace c && metroKeywordAt ((rest.dropWhile jsIsWhitespace).map Char.toLower) then []
    else c :: stripMetroSuffix rest

/-- Model of the `extractCityNames` helper of `createMetroNameMapping`
(src/app.js, lines 1279-1285): split on hyphen and comma, trim, keep
parts longer than 2 characters, strip a metro-keyword suffix, normalize. -/
def extractCityNames (name : List Char) : List (List Char) :=
  ((((splitDashComma name [] []).map jsTrim).filter
      (fun part => 2 < part.length)).map stripMetroSuffix).map normalizeName

/-- Score of one candidate canonical name against a source name whose
normalized form and city tokens are precomputed, as in
`createMetroNameMapping` (src/app.js, lines 1305-1338): 100 for an equal
normalized form, 80 for containment of the source in the candidate,
otherwise `min (50 + 15 * matches) 90` when at least one city token
matches, else 0. -/
def scorePair (csvNormalized : List Char) (csvCities : List (List Char))
    (cbsaName : List Char) : ℕ :=
  let cbsaNormalized := normalizeName cbsaName
  let cbsaCities := extractCityNames cbsaName
  if csvNormalized == cbsaNormalized then 100
  else if isSubstringOf csvNormalized cbsaNormalized then 80
  else
    let cityMatches :=
      (csvCities.filter (fun city => cbsaCities.any (fun cb => tokenMatch city cb))).length
    if 0 < cityMatches then min (50 + cityMatches * 15) 90 else 0

/-- The explicit exclusion in the candidate loop (src/app.js,
lines 1301-1303): a Las Vegas source name never considers the New Mexico
canonical entity. -/
def lasVegasSkip (csvName cbsaName : List Char) : Bool :=
  isSubstringOf ("las vegas".toList) (csvName.map Char.toLower) &&
    isSubstringOf ("Las Vegas, NM".toList) cbsaName

/-- The best-candidate fold of `createMetroNameMapping` (src/app.js,
lines 1293-1345): the highest-scoring candidate, earlier candidates
winning ties (the source updates only on a strictly greater score). -/
def bestCandidate (csvName csvNormalized : List Char) (csvCities : List (List Char))
    (cbsaNames : List (List Char)) : Option (List Char) × ℕ :=
  cbsaNames.foldl
    (fun acc cbsaName =>
      if lasVegasSkip csvName cbsaName then acc
      else
        let score := scorePair csvNormalized csvCities cbsaName
        if acc.snd < score then (some cbsaName, score) else acc)
    (none, 0)

/-- The hardcoded override table of `createMetroNameMapping` (src/app.js,
lines 1206-1260), in source order.  The keys of a JavaScript object
literal are unique, so an association-list lookup is a faithful model. -/
def hardcodedMappings : List (List Char × List Char) :=
  [("New York, NY".toList, "New York-Newark-Jersey City, NY-NJ Metro Area".toList),
   ("New York".toList, "New York-Newark-Jersey City, NY-NJ Metro Area".toList),
   ("New York City".toList, "New York-Newark-Jersey City, NY-NJ Metro Area".toList),
   ("NYC".toList, "New York-Newark-Jersey City, NY-NJ Metro Area".toList),
   ("New York-Newark-Jersey City".toList, "New York-Newark-Jersey City, NY-NJ Metro Area".toList),
   ("New York-Newark-Jersey City, NY-NJ-PA".toList, "New York-Newark-Jersey City, NY-NJ Metro Area".toList),
   ("Washington, DC".toList, "Washington-Arlington-Alexandria, DC-VA-MD-WV Metro Area".toList),
   ("Washington".toList, "Washington-Arlington-Alexandria, DC-VA-MD-WV Metro Area".toList),
   ("Washington DC".toList, "Washington-Arlington-Alexandria, DC-VA-MD-WV Metro Area".toList),
   ("DC".toList, "Washington-Arlington-Alexandria, DC-VA-MD-WV Metro Area".toList),
   ("Washington-Arlington-Alexandria".toList, "Washington-Arlington-Alexandria, DC-VA-MD-WV Metro Area".toList),
   ("Washington-Arlington-Alexandria, DC-VA-MD-WV".toList, "Washington-Arlington-Alexandria, DC-VA-MD-WV Metro Area".toList),
   ("Las Vegas, NV".toList, "Las Vegas-Henderson-North Las Vegas, NV Metro Area".toList),
   ("Las Vegas".toList, "Las Vegas-Henderson-North Las Vegas, NV Metro Area".toList),
   ("Las Vegas Nevada".toList, "Las Vegas-Henderson-North Las Vegas, NV Metro Area".toList),
   ("Las Vegas-Henderson".toList, "Las Vegas-Henderson-North Las Vegas, NV Metro Area".toList),
   ("Las Vegas-Henderson-Paradise, NV".toList, "Las Vegas-Henderson-North Las Vegas, NV Metro Area".toList),
   ("Las Vegas-Henderson-Paradise".toList, "Las Vegas-Henderson-North Las Vegas, NV Metro Area".toList),
   ("Las Vegas-Henderson-North Las Vegas, NV".toList, "Las Vegas-Henderson-North Las Vegas, NV Metro Area".toList),
   ("Las Vegas-Henderson-North Las Vegas".toList, "Las Vegas-Henderson-North Las Vegas, NV Metro Area".toList),
   ("Miami, FL".toList, "Miami-Fort Lauderdale-West Palm Beach, FL Metro Area".toList),
   ("Miami".toList, "Miami-Fort Lauderdale-West Palm Beach, FL Metro Area".toList),
   ("Miami-Fort Lauderdale".toList, "Miami-Fort Lauderdale-West Palm Beach, FL Metro Area".toList),
   ("Miami-Fort Lauderdale-Pompano Beach, FL".toList, "Miami-Fort Lauderdale-West Palm Beach, FL Metro Area".toList),
   ("Miami-Fort Lauderdale-Pompano Beach".toList, "Miami-Fort Lauderdale-West Palm Beach, FL Metro Area".toList),
   ("San Francisco, CA".toList, "San Francisco-Oakland-Fremont, CA Metro Area".toList),
   ("San Francisco".toList, "San Francisco-Oakland-Fremont, CA Metro Area".toList),
   ("SF".toList, "San Francisco-Oakland-Fremont, CA Metro Area".toList),
   ("San Francisco-Oakland".toList, "San Francisco-Oakland-Fremont, CA Metro Area".toList),
   ("San Francisco Bay Area".toList, "San Francisco-Oakland-Fremont, CA Metro Area".toList),
   ("San Francisco-Oakland-Berkeley, CA".toList, "San Francisco-Oakland-Fremont, CA Metro Area".toList),
   ("San Francisco-Oakland-Berkeley".toList, "San Francisco-Oakland-Fremont, CA Metro Area".toList),
   ("Lafayette, LA".toList, "Lafayette, LA Metro Area".toList),
   ("Lafayette-West Lafayette, IN".toList, "Lafayette-West Lafayette, IN Metro Area".toList),
   ("Charleston-North Charleston, SC".toList, "Charleston-North Charleston, SC Metro Area".toList),
   ("Birmingham-Hoover, AL".toList, "Birmingham, AL Metro Area".toList),
   ("Nashville-Davidson-Murfreesboro-Franklin, TN".toList, "Nashville-Davidson--Murfreesboro--Franklin, TN Metro Area".toList),
   ("Atlanta-Sandy Springs-Alpharetta, GA".toList, "Atlanta-Sandy Springs-Roswell, GA Metro Area".toList)]

/-- One step of the first loop of `createMetroNameMapping` (src/app.js,
lines 1262-1268): write the override entry when the source label has a
truthy override (a JavaScript object write is modeled by prepending, so a
lookup sees the most recent write). -/
def applyOverrideStep (mapping : List (List Char × List Char)) (csvName : List Char) :
    List (List Char × List Char) :=
  match hardcodedMappings.lookup csvName with
  | some canon => if canon.length = 0 then mapping else (csvName, canon) :: mapping
  | none => mapping

/-- One step of the fuzzy-matching loop of `createMetroNameMapping`
(src/app.js, lines 1287-1355): skip labels already mapped to a truthy
value, otherwise keep the best-scoring candidate when it is truthy and
its score is at least 75. -/
def fuzzyStep (cbsaNames : List (List Char)) (mapping : List (List Char × List Char))
    (csvName : List Char) : List (List Char × List Char) :=
  let alreadyMapped :=
    match mapping.lookup csvName with
    | some v => v.length != 0
    | none => false
  if alreadyMapped then mapping
  else
    let csvNormalized := normalizeName csvName
    let csvCities := extractCityNames csvName
    match bestCandidate csvName csvNormalized csvCities cbsaNames with
    | (some bestMatch, bestScore) =>
      if bestMatch.length ≠ 0 ∧ 75 ≤ bestScore then (csvName, bestMatch) :: mapping
      else mapping
    | (none, _) => mapping

/-- Model of `createMetroNameMapping` (src/app.js, lines 1202-1358):
first the override loop over the source labels, then the fuzzy-matching
loop. -/
def createMetroNameMapping (csvNames cbsaNames : List (List Char)) :
    List (List Char × List Char) :=
  csvNames.foldl (fuzzyStep cbsaNames) (csvNames.foldl applyOverrideStep [])

lemma dropWhile_head_false {p : Char → Bool} {l : List Char} {c : Char}
    (h : (l.dropWhile p).head? = some c) : p c = false := by
  induction l with
  | nil => simp [List.dropWhile] at h
  | cons a t ih =>
    by_cases hp : p a
    · rw [List.dropWhile_cons_of_pos hp] at h
      exact ih h
    · rw [List.dropWhile_cons_of_neg hp] at h
      simp at h
      rw [← h]
      simpa using hp

lemma dropWhile_getLast?_eq {p : Char → Bool} {l : List Char} {c : Char}
    (h : (l.dropWhile p).getLast? = some c) : l.getLast? = some c := by
  induction l with
  | nil => simp [List.dropWhile] at h
  | cons a t ih =>
    by_cases hp : p a
    · rw [List.dropWhile_cons_of_pos hp] at h
      have ht : t ≠ [] := by
        intro he
        subst he
        simp [List.dropWhile] at h
      obtain ⟨b, t', rfl⟩ := List.exists_cons_of_ne_nil ht
      rw [List.getLast?_cons_cons]
      exact ih h
    · rwa [List.dropWhile_cons_of_neg hp] at h

lemma mem_of_mem_jsTrim {c : Char} {l : List Char} (h : c ∈ jsTrim l) : c ∈ l := by
  unfold jsTrim at h
  rw [List.mem_reverse] at h
  have h1 := (List.dropWhile_sublist jsIsWhitespace).subset h
  rw [List.mem_reverse] at h1
  exact (List.dropWhile_sublist jsIsWhitespace).subset h1

lemma jsTrim_head {l : List Char} {c : Char} (h : (jsTrim l).head? = some c) :
    jsIsWhitespace c = false := by
  unfold jsTrim at h
  rw [List.head?_reverse] at h
  have h1 := dropWhile_getLast?_eq h
  rw [List.getLast?_reverse] at h1
  exact dropWhile_head_false h1

lemma jsTrim_getLast {l : List Char} {c : Char} (h : (jsTrim l).getLast? = some c) :
    jsIsWhitespace c = false := by
  unfold jsTrim at h
  rw [List.getLast?_reverse] at h
  exact dropWhile_head_false h

lemma fieldClean_jsTrim {cur : List Char} (h : '"' ∉ cur) : fieldClean (jsTrim cur) := by
  refine ⟨fun hm => h (mem_of_mem_jsTrim hm), fun c hc => jsTrim_head hc,
    fun c hc => jsTrim_getLast hc⟩

lemma parseCSVLineAux_clean (line : List Char) :
    ∀ (values : List (List Char)) (current : List Char) (inQuotes : Bool),
      (∀ f ∈ values, fieldClean f) → '"' ∉ current →
      ∀ f ∈ parseCSVLineAux line values current inQuotes, fieldClean f := by
  induction line with
  | nil =>
    intro values current inQuotes hv hc f hf
    unfold parseCSVLineAux at hf
    rcases List.mem_append.1 hf with h | h
    · exact hv f h
    · rw [List.mem_singleton] at h
      subst h
      exact fieldClean_jsTrim hc
  | cons ch rest ih =>
    intro values current inQuotes hv hc f hf
    unfold parseCSVLineAux at hf
    by_cases h1 : ch = '"'
    · rw [if_pos h1] at hf
      exact ih values current (!inQuotes) hv hc f hf
    · rw [if_neg h1] at hf
      by_cases h2 : (ch = ',' && !inQuotes) = true
      · rw [if_pos h2] at hf
        refine ih _ [] inQuotes ?_ (by simp) f hf
        intro g hg
        rcases List.mem_append.1 hg with h | h
        · exact hv g h
        · rw [List.mem_singleton] at h
          subst h
          exact fieldClean_jsTrim hc
      · rw [if_neg h2] at hf
        refine ih values (current ++ [ch]) inQuotes hv ?_ f hf
        intro hm
        rcases List.mem_append.1 hm with h | h
        · exact hc h
        · rw [List.mem_singleton] at h
          exact h1 h.symm

/-- Claim C10: every field produced by the CSV line parser contains no
double-quote character (every quote is consumed by the quote-toggling
state machine, so a doubled quote yields the surrounding text with both
quote characters removed) and has neither leading nor trailing
whitespace, because each field is trimmed before it is returned. -/
theorem parseCSVLine_fields_clean (line f : List Char) (hf : f ∈ parseCSVLine line) :
    '"' ∉ f ∧ (∀ c, f.head? = some c → jsIsWhitespace c = false) ∧
      (∀ c, f.getLast? = some c → jsIsWhitespace c = false) :=
  parseCSVLineAux_clean line [] [] false (by simp) (by simp) f hf

/-- Witness for C10 on a line with an RFC-4180 doubled quote and padding:
the parser yields the field with both quote characters removed and the
whitespace trimmed, and the theorem applies to it. -/
theorem parseCSVLine_fields_clean_witness :
    ("ab".toList ∈ parseCSVLine (" \"a\"\"b\" , c".toList)) ∧
      ('"' ∉ ("ab".toList) ∧
        (∀ c, ("ab".toList).head? = some c → jsIsWhitespace c = false) ∧
        (∀ c, ("ab".toList).getLast? = some c → jsIsWhitespace c = false)) :=
  ⟨by decide, parseCSVLine_fields_clean (" \"a\"\"b\" , c".toList) ("ab".toList) (by decide)⟩

/-- Claim C1: whenever the aligned calendar produced by `getCommonDates`
has fewer entries than the requested window (12, 36 or 60 months), the
beta computation returns `null`, never a padded or extrapolated number. -/
theorem beta_null_of_short_calendar (stateRows nationalRows : Series) (months : ℕ)
    (_hw : months = 12 ∨ months = 36 ∨ months = 60)
    (h : (getCommonDates stateRows nationalRows).length < months) :
    calculateBeta stateRows nationalRows months (getCommonDates stateRows nationalRows) = none := by
  unfold calculateBeta
  rw [if_pos h]

/-- Witness for C1: empty series give an empty aligned calendar, shorter
than the 12-month window, and the beta is `null`. -/
theorem beta_null_of_short_calendar_witness :
    calculateBeta [] [] 12 (getCommonDates [] []) = none :=
  beta_null_of_short_calendar [] [] 12 (Or.inl rfl) (by decide)

/-- Counterexample to C2: over the aligned dates `[4, 3]` the national
series is missing its value at date 4, yet the pair still contributes a
return to the state series, so the pair is not skipped jointly and the
two return series have different lengths. -/
theorem returns_skip_not_joint :
    getReturns [((4 : Int), some (2 : ℚ)), (3, some 1)] [4, 3] = [1] ∧
      getReturns [((4 : Int), (none : Option ℚ)), (3, some 1)] [4, 3] = [] := by
  constructor
  · norm_num [getReturns, getReturnsAux, seriesAt, firstRowAt]
  · norm_num [getReturns, getReturnsAux, seriesAt, firstRowAt]

/-- Claim C2 amended: the skip decision of `getReturns` is taken per
series (a consecutive pair contributes a return to a series exactly when
that series has both values present and nonzero), so the two return
series need not stay aligned; when their lengths differ, `calculateBeta`
returns `null`. -/
theorem returns_skip_per_series :
    (∀ (rows : Series) (dates : List Int),
        getReturns rows dates =
          (dates.zip dates.tail).filterMap (fun p =>
            match seriesAt rows p.1, seriesAt rows p.2 with
            | some c, some q => if c ≠ 0 ∧ q ≠ 0 then some ((c - q) / q) else none
            | _, _ => none)) ∧
    (∀ (stateRows nationalRows : Series) (months : ℕ) (commonDates : List Int),
        (getReturns stateRows (commonDates.take months)).length ≠
            (getReturns nationalRows (commonDates.take months)).length →
        calculateBeta stateRows nationalRows months commonDates = none) := by
  constructor
  · intro rows dates
    induction dates with
    | nil => rfl
    | cons d1 rest ih =>
      cases rest with
      | nil => rfl
      | cons d2 rest2 =>
        show getReturnsAux rows (d1 :: d2 :: rest2) = _
        unfold getReturnsAux
        rw [show getReturnsAux rows (d2 :: rest2) = getReturns rows (d2 :: rest2) from rfl, ih]
        simp only [List.tail_cons, List.zip_cons_cons, List.filterMap_cons]
        cases seriesAt rows d1 with
        | none => simp
        | some c =>
          cases seriesAt rows d2 with
          | none => simp
          | some q =>
            by_cases hcq : c ≠ 0 ∧ q ≠ 0
            · simp [hcq]
            · simp [hcq]
  · intro stateRows nationalRows months commonDates hne
    unfold calculateBeta
    by_cases hlen : commonDates.length < months
    · rw [if_pos hlen]
    · rw [if_neg hlen]
      unfold betaFromReturns
      rw [if_pos (Or.inl hne)]

/-- Witness for C2 amended: on the counterexample data the return series
have lengths 1 and 0, and the beta is `null`. -/
theorem returns_skip_per_series_witness :
    calculateBeta [((4 : Int), some (2 : ℚ)), (3, some 1)]
      [((4 : Int), (none : Option ℚ)), (3, some 1)] 2 [4, 3] = none :=
  returns_skip_per_series.2 [((4 : Int), some (2 : ℚ)), (3, some 1)]
    [((4 : Int), (none : Option ℚ)), (3, some 1)] 2 [4, 3] (by decide)

lemma calculateVariance_isSome {y : List ℚ} (h2 : 2 ≤ y.length) :
    ∃ v, calculateVariance y = some v := by
  have h0 : y.length ≠ 0 := by omega
  have h1 : ((y.length : ℚ) - 1) ≠ 0 := by
    have : (2 : ℚ) ≤ (y.length : ℚ) := by exact_mod_cast h2
    linarith
  unfold calculateVariance jsDiv
  simp only [h0, if_false, if_neg h1]
  exact ⟨_, rfl⟩

lemma calculateCovariance_isSome {x y : List ℚ} (hlen : x.length = y.length)
    (h2 : 2 ≤ x.length) :
    ∃ c, calculateCovariance x y = some c := by
  have h0 : ¬ (x.length ≠ y.length ∨ x.length = 0) := by
    push_neg
    exact ⟨hlen, by omega⟩
  have h1 : ((x.length : ℚ) - 1) ≠ 0 := by
    have : (2 : ℚ) ≤ (x.length : ℚ) := by exact_mod_cast h2
    linarith
  unfold calculateCovariance jsDiv
  simp only [if_neg h0, if_neg h1]
  exact ⟨_, rfl⟩

/-- Counterexample to C3: on empty input series the beta is `null`
(insufficient history), but the beta field of the formatted record built
by `getFormattedStateData` exposes it as the number `0`, not as `null`. -/
theorem formatted_beta_zero_for_null :
    calculateBeta [] [] 12 [] = none ∧
      formatBetaField (calculateBeta [] [] 12 []) = 0 := by
  constructor
  · rfl
  · rfl

/-- Claim C3 amended: inside the beta engine every insufficiency
condition yields `null` and nothing else does: the beta is `none` exactly
when the aligned calendar is shorter than the window, the two return
series have different lengths, fewer than 2 returns remain, or the
national variance is zero.  The formatted record of
`getFormattedStateData`, however, replaces a `null` beta by `0` (see the
counterexample). -/
theorem beta_null_iff_insufficient (s n : Series) (m : ℕ) (cd : List Int) :
    calculateBeta s n m cd = none ↔
      cd.length < m ∨
        (getReturns s (cd.take m)).length ≠ (getReturns n (cd.take m)).length ∨
        (getReturns s (cd.take m)).length < 2 ∨
        calculateVariance (getReturns n (cd.take m)) = some 0 := by
  unfold calculateBeta
  by_cases hlen : cd.length < m
  · simp [hlen]
  · rw [if_neg hlen]
    simp only [hlen, false_or]
    unfold betaFromReturns
    by_cases hg : (getReturns s (cd.take m)).length ≠ (getReturns n (cd.take m)).length ∨
        (getReturns s (cd.take m)).length < 2
    · rw [if_pos hg]
      simp only [true_iff, eq_self_iff_true]
      rcases hg with h | h
      · exact Or.inl h
      · exact Or.inr (Or.inl h)
    · rw [if_neg hg]
      push_neg at hg
      obtain ⟨heq, h2⟩ := hg
      have h2' : 2 ≤ (getReturns s (cd.take m)).length := by omega
      obtain ⟨c, hc⟩ := calculateCovariance_isSome heq h2'
      obtain ⟨v, hv⟩ := calculateVariance_isSome (by omega : 2 ≤ (getReturns n (cd.take m)).length)
      by_cases hv0 : v = 0
      · subst hv0
        constructor
        · intro _
          exact Or.inr (Or.inr hv)
        · intro _
          rw [hc, hv]
          simp
      · constructor
        · intro hnone
          rw [hc, hv] at hnone
          have hnone' : (if v = 0 then (none : Option ℚ) else some (c / v)) = none := hnone
          rw [if_neg hv0] at hnone'
          cases hnone'
        · intro hdis
          rcases hdis with h | h | h
          · exact absurd heq h
          · omega
          · rw [hv] at h
            injection h with h'
            exact absurd h' hv0

lemma calculateCovariance_eq_spec {x y : List ℚ} (hlen : x.length = y.length)
    (h2 : 2 ≤ x.length) :
    calculateCovariance x y = some (specSampleCovariance x y) := by
  have h0 : ¬ (x.length ≠ y.length ∨ x.length = 0) := by
    push_neg
    exact ⟨hlen, by omega⟩
  have h1 : ((x.length : ℚ) - 1) ≠ 0 := by
    have : (2 : ℚ) ≤ (x.length : ℚ) := by exact_mod_cast h2
    linarith
  simp only [calculateCovariance, jsDiv, if_neg h0, if_neg h1,
    specSampleCovariance, listMean]
  rw [hlen]

lemma calculateVariance_eq_spec {y : List ℚ} (h2 : 2 ≤ y.length) :
    calculateVariance y = some (specSampleVariance y) := by
  have h0 : y.length ≠ 0 := by omega
  have h1 : ((y.length : ℚ) - 1) ≠ 0 := by
    have : (2 : ℚ) ≤ (y.length : ℚ) := by exact_mod_cast h2
    linarith
  simp only [calculateVariance, jsDiv, h0, if_false, if_neg h1,
    specSampleVariance, listMean]

/-- Claim C4: for equal-length return vectors with at least 2 elements,
the beta stage computes exactly the Bessel-corrected sample covariance of
the local and national returns divided by the Bessel-corrected sample
variance of the national returns, and the result is `null` exactly when
the national variance is zero. -/
theorem betaFromReturns_matches_spec (x y : List ℚ) (hlen : x.length = y.length)
    (h2 : 2 ≤ x.length) :
    betaFromReturns x y =
        (if specSampleVariance y = 0 then none
         else some (specSampleCovariance x y / specSampleVariance y)) ∧
      (betaFromReturns x y = none ↔ specSampleVariance y = 0) := by
  have hg : ¬ (x.length ≠ y.length ∨ x.length < 2) := by
    push_neg
    exact ⟨hlen, by omega⟩
  have hmain : betaFromReturns x y =
      (if specSampleVariance y = 0 then none
       else some (specSampleCovariance x y / specSampleVariance y)) := by
    unfold betaFromReturns
    rw [if_neg hg, calculateCovariance_eq_spec hlen h2, calculateVariance_eq_spec (hlen ▸ h2)]
  refine ⟨hmain, ?_⟩
  rw [hmain]
  by_cases hv : specSampleVariance y = 0
  · simp [hv]
  · simp [hv]

/-- Witness for C4: two concrete return vectors of length 2; the national
variance is 1/2 and the beta evaluates through the spec formulas. -/
theorem betaFromReturns_matches_spec_witness :
    betaFromReturns [(1 : ℚ), 2] [(1 : ℚ), 3] =
        (if specSampleVariance [(1 : ℚ), 3] = 0 then none
         else some (specSampleCovariance [(1 : ℚ), 2] [(1 : ℚ), 3] /
           specSampleVariance [(1 : ℚ), 3])) ∧
      (betaFromReturns [(1 : ℚ), 2] [(1 : ℚ), 3] = none ↔
        specSampleVariance [(1 : ℚ), 3] = 0) :=
  betaFromReturns_matches_spec [(1 : ℚ), 2] [(1 : ℚ), 3] (by decide) (by decide)

lemma firstRowAt_scale (k : ℚ) (d : Int) (l : Series) :
    firstRowAt d (l.map (fun r => (r.fst, r.snd.map (fun v => k * v)))) =
      (firstRowAt d l).map (fun v => k * v) := by
  induction l with
  | nil => rfl
  | cons r rest ih =>
    by_cases hd : r.fst = d
    · simp only [List.map_cons, firstRowAt, hd, if_pos]
    · simp only [List.map_cons, firstRowAt, hd, if_neg, ite_false, ih]

lemma seriesAt_scale (k : ℚ) (rows : Series) (d : Int) :
    seriesAt (scaleSeries k rows) d = (seriesAt rows d).map (fun v => k * v) := by
  unfold seriesAt scaleSeries
  rw [← List.map_reverse]
  exact firstRowAt_scale k d rows.reverse

lemma getReturns_scale {k : ℚ} (hk : k ≠ 0) (rows : Series) (dates : List Int) :
    getReturns (scaleSeries k rows) dates = getReturns rows dates := by
  show getReturnsAux (scaleSeries k rows) dates = getReturnsAux rows dates
  induction dates with
  | nil => rfl
  | cons d1 rest ih =>
    cases rest with
    | nil => rfl
    | cons d2 rest2 =>
      simp only [getReturnsAux, seriesAt_scale, ih]
      cases seriesAt rows d1 with
      | none => rfl
      | some c =>
        cases seriesAt rows d2 with
        | none => rfl
        | some p =>
          simp only [Option.map_some']
          by_cases hcp : c ≠ 0 ∧ p ≠ 0
          · rw [if_pos hcp, if_pos ⟨mul_ne_zero hk hcp.1, mul_ne_zero hk hcp.2⟩]
            congr 1
            rw [← mul_sub, mul_div_mul_left _ _ hk]
          · have hmul : ¬ (k * c ≠ 0 ∧ k * p ≠ 0) := by
              rintro ⟨h1, h2⟩
              exact hcp ⟨fun h => h1 (by rw [h, mul_zero]),
                fun h => h2 (by rw [h, mul_zero])⟩
            rw [if_neg hcp, if_neg hmul]

/-- Counterexample to C5: concrete three-month series where the beta is
1/2; scaling every state value by the positive constant 2 leaves the
beta at 1/2 instead of scaling it to 1, because monthly returns are
ratios and are unchanged by a constant rescaling of the series. -/
theorem beta_not_scaled_by_local_scaling :
    calculateBeta [((1 : Int), some (1 : ℚ)), (2, some 2), (3, some 6)]
        [((1 : Int), some (1 : ℚ)), (2, some 2), (3, some 8)] 3 [3, 2, 1] = some (1 / 2) ∧
      calculateBeta (scaleSeries 2 [((1 : Int), some (1 : ℚ)), (2, some 2), (3, some 6)])
        [((1 : Int), some (1 : ℚ)), (2, some 2), (3, some 8)] 3 [3, 2, 1] = some (1 / 2) ∧
      calculateBeta (scaleSeries 2 [((1 : Int), some (1 : ℚ)), (2, some 2), (3, some 6)])
        [((1 : Int), some (1 : ℚ)), (2, some 2), (3, some 8)] 3 [3, 2, 1] ≠
        some (2 * (1 / 2)) := by
  refine ⟨?_, ?_, ?_⟩
  · norm_num [calculateBeta, betaFromReturns, getReturns, getReturnsAux, seriesAt,
      firstRowAt, calculateCovariance, calculateVariance, jsDiv, List.zipWith]
  · norm_num [calculateBeta, betaFromReturns, getReturns, getReturnsAux, seriesAt,
      firstRowAt, calculateCovariance, calculateVariance, jsDiv, scaleSeries, List.zipWith]
  · norm_num [calculateBeta, betaFromReturns, getReturns, getReturnsAux, seriesAt,
      firstRowAt, calculateCovariance, calculateVariance, jsDiv, scaleSeries, List.zipWith]

/-- Claim C5 amended: the beta is invariant under scaling the local
series by a positive constant, under scaling the national series by a
positive constant, and under scaling both; the monthly returns are
ratios, so a constant rescaling of a series cancels out entirely. -/
theorem beta_scale_invariant (s n : Series) (m : ℕ) (cd : List Int) (k j : ℚ)
    (hk : 0 < k) (hj : 0 < j) :
    calculateBeta (scaleSeries k s) n m cd = calculateBeta s n m cd ∧
      calculateBeta s (scaleSeries j n) m cd = calculateBeta s n m cd ∧
      calculateBeta (scaleSeries k s) (scaleSeries j n) m cd = calculateBeta s n m cd := by
  simp [calculateBeta, getReturns_scale hk.ne' s, getReturns_scale hj.ne' n]

/-- Witness for C5 amended: the invariance applied to the concrete
counterexample series with both scale factors equal to 2. -/
theorem beta_scale_invariant_witness :
    calculateBeta (scaleSeries 2 [((1 : Int), some (1 : ℚ)), (2, some 2), (3, some 6)])
        [((1 : Int), some (1 : ℚ)), (2, some 2), (3, some 8)] 3 [3, 2, 1] =
      calculateBeta [((1 : Int), some (1 : ℚ)), (2, some 2), (3, some 6)]
        [((1 : Int), some (1 : ℚ)), (2, some 2), (3, some 8)] 3 [3, 2, 1] :=
  (beta_scale_invariant [((1 : Int), some (1 : ℚ)), (2, some 2), (3, some 6)]
    [((1 : Int), some (1 : ℚ)), (2, some 2), (3, some 8)] 3 [3, 2, 1] 2 2
    (by norm_num) (by norm_num)).1

lemma variance_replicate (v : ℚ) {n : ℕ} (h2 : 2 ≤ n) :
    calculateVariance (List.replicate n v) = some 0 := by
  have hn0 : n ≠ 0 := by omega
  have hnq : (n : ℚ) ≠ 0 := Nat.cast_ne_zero.mpr hn0
  have h1 : ((n : ℚ) - 1) ≠ 0 := by
    have : (2 : ℚ) ≤ (n : ℚ) := by exact_mod_cast h2
    linarith
  have hmean : (List.replicate n v).sum / (n : ℚ) = v := by
    rw [List.sum_replicate, nsmul_eq_mul, mul_div_cancel_left₀ _ hnq]
  have hmean' : (List.replicate n v).sum / ((List.replicate n v).length : ℚ) = v := by
    rw [List.length_replicate]
    exact hmean
  simp only [calculateVariance, jsDiv, List.length_replicate, hmean, hmean',
    List.map_replicate, sub_self, if_neg hn0, if_neg h1]
  norm_num [List.sum_replicate]

lemma getReturns_const {rows : Series} {v : ℚ} :
    ∀ {dates : List Int}, (∀ d ∈ dates, seriesAt rows d = some v) →
      getReturns rows dates = if v = 0 then [] else List.replicate (dates.length - 1) 0 := by
  intro dates
  induction dates with
  | nil =>
    intro _
    by_cases hv : v = 0
    · simp [hv, getReturns, getReturnsAux]
    · simp [hv, getReturns, getReturnsAux]
  | cons d1 rest ih =>
    intro h
    cases rest with
    | nil =>
      by_cases hv : v = 0
      · simp [hv, getReturns, getReturnsAux]
      · simp [hv, getReturns, getReturnsAux]
    | cons d2 rest2 =>
      have htail : getReturns rows (d2 :: rest2) =
          if v = 0 then [] else List.replicate ((d2 :: rest2).length - 1) 0 :=
        ih (fun d hd => h d (List.mem_cons_of_mem _ hd))
      show getReturnsAux rows (d1 :: d2 :: rest2) = _
      simp only [getReturnsAux, h d1 (by simp), h d2 (by simp)]
      by_cases hv : v = 0
      · rw [if_pos hv]
        have : ¬ (v ≠ 0 ∧ v ≠ 0) := by
          rintro ⟨hc, _⟩
          exact hc hv
        rw [if_neg this]
        have := htail
        rw [if_pos hv] at this
        exact this
      · rw [if_neg hv, if_pos ⟨hv, hv⟩]
        have := htail
        rw [if_neg hv] at this
        rw [show getReturnsAux rows (d2 :: rest2) = getReturns rows (d2 :: rest2) from rfl,
          this, sub_self, zero_div]
        simp [List.replicate_succ]

/-- Counterexample to C6: for a constant series of length 1 (the claim
allows every length at least 1) the code computes `variance / (n - 1)`
with `n = 1`, a `0 / 0` division whose JavaScript value is `NaN`, not the
number 0. -/
theorem variance_singleton_not_zero :
    calculateVariance (List.replicate 1 (5 : ℚ)) = none ∧
      calculateVariance (List.replicate 1 (5 : ℚ)) ≠ some 0 := by
  have h : calculateVariance (List.replicate 1 (5 : ℚ)) = none := by
    norm_num [calculateVariance, jsDiv]
  refine ⟨h, ?_⟩
  rw [h]
  simp

/-- Claim C6 amended: for a constant series of length at least 2 the
variance is exactly 0 (for length 1 the code divides 0 by 0, see the
counterexample), and every beta computed against a national baseline that
is constant on the window dates is `null`. -/
theorem variance_constant_zero_beta_null :
    (∀ (v : ℚ) (n : ℕ), 2 ≤ n → calculateVariance (List.replicate n v) = some 0) ∧
      (∀ (s nat : Series) (m : ℕ) (cd : List Int) (v : ℚ),
        (∀ d ∈ cd.take m, seriesAt nat d = some v) →
        calculateBeta s nat m cd = none) := by
  constructor
  · intro v n h2
    exact variance_replicate v h2
  · intro s nat m cd v h
    by_cases hlen : cd.length < m
    · simp only [calculateBeta, if_pos hlen]
    · simp only [calculateBeta, if_neg hlen]
      rw [getReturns_const h]
      by_cases hv : v = 0
      · rw [if_pos hv]
        unfold betaFromReturns
        rw [if_pos ?_]
        simp only [List.length_nil]
        omega
      · rw [if_neg hv]
        unfold betaFromReturns
        by_cases hg : (getReturns s (cd.take m)).length ≠
            (List.replicate ((cd.take m).length - 1) (0 : ℚ)).length ∨
            (getReturns s (cd.take m)).length < 2
        · rw [if_pos hg]
        · rw [if_neg hg]
          push_neg at hg
          obtain ⟨heq, h2⟩ := hg
          have hrep2 : 2 ≤ (cd.take m).length - 1 := by
            rw [List.length_replicate] at heq
            omega
          obtain ⟨c, hc⟩ := calculateCovariance_isSome heq (by omega)
          rw [hc, variance_replicate 0 hrep2]
          rfl

/-- Witness for C6 amended: the variance of `[5, 5, 5]` is exactly 0, and
the beta over three aligned months with the constant national value 7 is
`null`. -/
theorem variance_constant_zero_beta_null_witness :
    calculateVariance (List.replicate 3 (5 : ℚ)) = some 0 ∧
      calculateBeta [((1 : Int), some (1 : ℚ)), (2, some 2), (3, some 6)]
        [((1 : Int), some (7 : ℚ)), (2, some 7), (3, some 7)] 3 [3, 2, 1] = none :=
  ⟨variance_constant_zero_beta_null.1 5 3 (by norm_num),
   variance_constant_zero_beta_null.2 [((1 : Int), some (1 : ℚ)), (2, some 2), (3, some 6)]
     [((1 : Int), some (7 : ℚ)), (2, some 7), (3, some 7)] 3 [3, 2, 1] 7
     (by intro d hd; fin_cases hd <;> norm_num [seriesAt, firstRowAt])⟩

lemma insertDescBy_length (key : α → Int) (a : α) (l : List α) :
    (insertDescBy key a l).length = l.length + 1 := by
  induction l with
  | nil => rfl
  | cons y ys ih =>
    by_cases hy : key y ≤ key a
    · simp [insertDescBy, hy]
    · simp [insertDescBy, hy, ih]

lemma sortDescBy_length (key : α → Int) (l : List α) :
    (sortDescBy key l).length = l.length := by
  induction l with
  | nil => rfl
  | cons a rest ih =>
    simp [sortDescBy, insertDescBy_length, ih]

/-- Counterexample to C7: a two-month series whose most recent value is
the number 0 with a nonzero previous value.  The claim formula gives
`mom = 0 / 5 - 1 = -1`, but the code also skips the division when the
numerator is zero (a JavaScript zero is falsy) and returns `mom = 0`. -/
theorem changes_zero_numerator_diverges :
    calculateChanges [((2 : Int), some (0 : ℚ)), (1, some 5)] ≠
      claimChanges [((2 : Int), some (0 : ℚ)), (1, some 5)] := by
  norm_num [calculateChanges, claimChanges, claimChange, sortDescBy, insertDescBy,
    Prod.ext_iff]

/-- Claim C7 amended: `calculateChanges` computes the claimed quotient
formulas over the descending-sorted series (mom from the two most recent
observations, yoy from the observation twelve positions back and only
with at least 13 observations), with the division skipped and 0 returned
when the denominator is missing or zero or the numerator is missing or
zero. -/
theorem changes_match_amended (ts : Series) : calculateChanges ts = amendedChanges ts := by
  by_cases h : ts.length < 2
  · have h1 : (sortDescBy Prod.fst ts).get? 1 = none := by
      rw [List.get?_eq_none, sortDescBy_length]
      omega
    have h13 : ¬ (13 ≤ (sortDescBy Prod.fst ts).length) := by
      rw [sortDescBy_length]
      omega
    simp only [calculateChanges, amendedChanges, if_pos h, h1, if_neg h13]
    cases hcur : (sortDescBy Prod.fst ts).head?.bind Prod.snd with
    | none => rfl
    | some c => rfl
  · have h2 : 2 ≤ (sortDescBy Prod.fst ts).length := by
      rw [sortDescBy_length]
      omega
    simp only [calculateChanges, amendedChanges, if_neg h, if_pos h2]
    rfl

lemma listStartsWith_length_le {p : List Char} :
    ∀ {s : List Char}, listStartsWith p s = true → p.length ≤ s.length := by
  induction p with
  | nil =>
    intro s _
    simp
  | cons a ps ih =>
    intro s h
    cases s with
    | nil => simp [listStartsWith] at h
    | cons b t =>
      simp only [listStartsWith, Bool.and_eq_true] at h
      have := ih h.2
      simp only [List.length_cons]
      omega

lemma isSubstringOf_length_le {s sub : List Char} (h : isSubstringOf sub s = true) :
    sub.length ≤ s.length := by
  induction s with
  | nil =>
    unfold isSubstringOf at h
    rw [Bool.or_eq_true] at h
    rcases h with h | h
    · exact listStartsWith_length_le h
    · cases h
  | cons c rest ih =>
    unfold isSubstringOf at h
    rw [Bool.or_eq_true] at h
    rcases h with h | h
    · exact listStartsWith_length_le h
    · exact le_trans (ih h) (by simp)

lemma listStartsWith_refl (l : List Char) : listStartsWith l l = true := by
  induction l with
  | nil => rfl
  | cons a t ih => simp [listStartsWith, ih]

lemma isSubstringOf_refl (l : List Char) : isSubstringOf l l = true := by
  unfold isSubstringOf
  rw [listStartsWith_refl]
  cases l <;> rfl

/-- Counterexample to C8: the 15-character token and the 4-character
token alexandriaville and alex, where one contains the other but the
shorter covers under 27 percent of the longer.  The code still counts the
pair as a match, because its threshold compares the contained token
against 80 percent of `minLength`, the shorter length (the computed
`maxLength` is never used), which always holds under containment. -/
theorem tokenMatch_violates_longer_threshold :
    tokenMatch ("alexandriaville".toList) ("alex".toList) = true ∧
      10 * min ("alexandriaville".toList).length ("alex".toList).length <
        8 * max ("alexandriaville".toList).length ("alex".toList).length := by
  constructor
  · decide
  · decide

/-- Claim C8 amended: a pair of tokens is counted as a match exactly when
both tokens are at least 4 characters long and one contains the other;
the 80 percent threshold of the code is measured against the shorter
length and is therefore always satisfied under containment. -/
theorem tokenMatch_iff (city cbsaCity : List Char) :
    tokenMatch city cbsaCity = true ↔
      4 ≤ city.length ∧ 4 ≤ cbsaCity.length ∧
        (isSubstringOf cbsaCity city = true ∨ isSubstringOf city cbsaCity = true) := by
  simp only [tokenMatch]
  constructor
  · intro h
    split_ifs at h with h1 h2 h3 h4
    · simp only [Bool.or_eq_true, decide_eq_true_eq, not_or, not_lt] at h1
      refine ⟨h1.1, h1.2, ?_⟩
      have heq : city = cbsaCity := by
        simpa using h2
      subst heq
      exact Or.inl (isSubstringOf_refl city)
    · simp only [Bool.or_eq_true, decide_eq_true_eq, not_or, not_lt] at h1
      rw [Bool.and_eq_true] at h3
      exact ⟨h1.1, h1.2, Or.inl h3.1⟩
    · simp only [Bool.or_eq_true, decide_eq_true_eq, not_or, not_lt] at h1
      rw [Bool.and_eq_true] at h4
      exact ⟨h1.1, h1.2, Or.inr h4.1⟩
  · rintro ⟨h4c, h4b, hsub⟩
    split_ifs with h1 h2 h3 h4
    · simp only [Bool.or_eq_true, decide_eq_true_eq] at h1
      omega
    · rfl
    · rfl
    · rfl
    · exfalso
      rcases hsub with hs | hs
      · have hle := isSubstringOf_length_le hs
        have hmin : min city.length cbsaCity.length = cbsaCity.length :=
          Nat.min_eq_right hle
        apply h3
        rw [Bool.and_eq_true]
        refine ⟨hs, decide_eq_true ?_⟩
        rw [hmin]
        omega
      · have hle := isSubstringOf_length_le hs
        have hmin : min city.length cbsaCity.length = city.length :=
          Nat.min_eq_left hle
        apply h4
        rw [Bool.and_eq_true]
        refine ⟨hs, decide_eq_true ?_⟩
        rw [hmin]
        omega

lemma lookup_cons_self {label c : List Char} {m : List (List Char × List Char)} :
    ((label, c) :: m).lookup label = some c := by
  simp [List.lookup]

lemma lookup_cons_ne {label name c : List Char} {m : List (List Char × List Char)}
    (h : label ≠ name) : ((name, c) :: m).lookup label = m.lookup label := by
  have hb : (label == name) = false := beq_eq_false_iff_ne.mpr h
  simp [List.lookup, hb]

lemma fuzzyStep_shape (cbsaNames : List (List Char)) (m : List (List Char × List Char))
    (name : List Char) :
    fuzzyStep cbsaNames m name = m ∨ ∃ b, fuzzyStep cbsaNames m name = (name, b) :: m := by
  simp only [fuzzyStep]
  split
  · exact Or.inl rfl
  · split
    · split
      · exact Or.inr ⟨_, rfl⟩
      · exact Or.inl rfl
    · exact Or.inl rfl

lemma applyOverrideStep_shape (m : List (List Char × List Char)) (name : List Char) :
    applyOverrideStep m name = m ∨ ∃ c, applyOverrideStep m name = (name, c) :: m := by
  simp only [applyOverrideStep]
  split
  · split
    · exact Or.inl rfl
    · exact Or.inr ⟨_, rfl⟩
  · exact Or.inl rfl

lemma overrideFold_lookup {label canon : List Char}
    (hTab : hardcodedMappings.lookup label = some canon) (hNe : canon.length ≠ 0) :
    ∀ (names : List (List Char)) (acc : List (List Char × List Char)),
      (label ∈ names ∨ acc.lookup label = some canon) →
      (names.foldl applyOverrideStep acc).lookup label = some canon := by
  intro names
  induction names with
  | nil =>
    intro acc h
    rcases h with h | h
    · simp at h
    · simpa using h
  | cons name rest ih =>
    intro acc h
    rw [List.foldl_cons]
    by_cases hn : name = label
    · subst hn
      have hstep : applyOverrideStep acc name = (name, canon) :: acc := by
        unfold applyOverrideStep
        rw [hTab]
        exact if_neg hNe
      refine ih _ (Or.inr ?_)
      rw [hstep, lookup_cons_self]
    · refine ih _ ?_
      rcases h with h | h
      · rcases List.mem_cons.mp h with he | hm
        · exact absurd he.symm hn
        · exact Or.inl hm
      · refine Or.inr ?_
        rcases applyOverrideStep_shape acc name with he | ⟨c, he⟩
        · rw [he]
          exact h
        · rw [he, lookup_cons_ne (fun he2 => hn he2.symm)]
          exact h

lemma fuzzyFold_preserve {label canon : List Char} (hNe : canon.length ≠ 0)
    (cbsaNames : List (List Char)) :
    ∀ (names : List (List Char)) (acc : List (List Char × List Char)),
      acc.lookup label = some canon →
      (names.foldl (fuzzyStep cbsaNames) acc).lookup label = some canon := by
  intro names
  induction names with
  | nil =>
    intro acc h
    simpa using h
  | cons name rest ih =>
    intro acc h
    rw [List.foldl_cons]
    apply ih
    by_cases hn : name = label
    · subst hn
      have hskip : fuzzyStep cbsaNames acc name = acc := by
        unfold fuzzyStep
        rw [h]
        rw [if_pos (bne_iff_ne.mpr hNe)]
      rw [hskip]
      exact h
    · rcases fuzzyStep_shape cbsaNames acc name with he | ⟨b, he⟩
      · rw [he]
        exact h
      · rw [he, lookup_cons_ne (fun hx => hn hx.symm)]
        exact h

/-- Claim C9: a source label present verbatim in the hardcoded override
table is mapped by `createMetroNameMapping` to the override canonical
label, for every list of canonical candidates: the fuzzy scorer is never
applied to it, regardless of any higher-scoring fuzzy candidate. -/
theorem override_short_circuits_fuzzy (label canon : List Char)
    (csvNames cbsaNames : List (List Char))
    (hIn : label ∈ csvNames)
    (hTab : hardcodedMappings.lookup label = some canon)
    (hNe : canon.length ≠ 0) :
    (createMetroNameMapping csvNames cbsaNames).lookup label = some canon := by
  unfold createMetroNameMapping
  exact fuzzyFold_preserve hNe cbsaNames csvNames _
    (overrideFold_lookup hTab hNe csvNames [] (Or.inl hIn))

/-- Witness for C9: the label NYC is in the override table and maps to
the New York canonical title no matter what candidate list is offered. -/
theorem override_short_circuits_fuzzy_witness :
    (createMetroNameMapping [("NYC".toList)]
        [("New York-Newark-Jersey City, NY-NJ Metro Area".toList)]).lookup ("NYC".toList) =
      some ("New York-Newark-Jersey City, NY-NJ Metro Area".toList) :=
  override_short_circuits_fuzzy ("NYC".toList)
    ("New York-Newark-Jersey City, NY-NJ Metro Area".toList)
    [("NYC".toList)] [("New York-Newark-Jersey City, NY-NJ Metro Area".toList)]
    (by decide) (by decide) (by decide)

end RealEstate
